import Mathlib

/-!
# Verification of `ovos-workshop` conversational-skill behaviour

Shallow embedding of `src/ovos_workshop/skills/converse.py` and of the
`get_response` machinery of `src/ovos_workshop/skills/ovos.py`, together with
theorems settling the specification claims about them.

Python dictionaries are modelled as association lists, Python values that flow
through the bus as the inductive `PyVal` (with Python truthiness), and the
blocking response-collection loop as a function over an explicit list of
per-cycle inputs.
-/

/-- A Python value as it appears in bus message payloads and validator
results: `None`, booleans, strings, rationals (Python numbers), and lists of
strings (utterance lists). -/
inductive PyVal where
  | pyNone
  | bool (b : Bool)
  | str (s : String)
  | num (q : ℚ)
  | list (xs : List String)
deriving DecidableEq, Repr

/-- Python truthiness of a `PyVal`: `None`, `False`, `""`, `0` and `[]` are
falsy, everything else truthy. -/
def PyVal.truthy : PyVal → Bool
  | .pyNone => false
  | .bool b => b
  | .str s => s != ""
  | .num q => decide (q ≠ 0)
  | .list xs => !xs.isEmpty

/-- A bus message: its `msg_type` and its `data` payload (a Python dict,
modelled as an association list). -/
structure Message where
  msg_type : String
  data : List (String × PyVal)
deriving DecidableEq, Repr

/-- `d.get(k)` on a Python dict modelled as an association list. -/
def dictGet {α : Type} (m : List (String × α)) (k : String) : Option α :=
  match m with
  | [] => Option.none
  | (k', v) :: rest => if k' = k then some v else dictGet rest k

/-- `d[k] = v` on a Python dict modelled as an association list: replace the
binding if the key is present, append it otherwise. -/
def dictSet {α : Type} (m : List (String × α)) (k : String) (v : α) :
    List (String × α) :=
  match m with
  | [] => [(k, v)]
  | (k', v') :: rest =>
      if k' = k then (k', v) :: rest else (k', v') :: dictSet rest k v

/-! ## `converse.py`: activation, language resolution, converse intents -/

/-- Modelled from the spec: `ovos_utils.lang.standardize_lang_tag`, external
to this repository; it normalizes a BCP-47 tag to canonical form. All tags
appearing in this development are already canonical, where normalization is
the identity. -/
def standardize_lang_tag (t : String) : String := t

/-- `ConversationalSkill.activate` (converse.py lines 27-46): resolve the
duration (default: the configured converse timeout in seconds divided by 60)
and emit one `intent.service.skills.activate` message carrying the skill id
and the duration under the `"timeout"` key. `cfgConverseTimeout` models
`Configuration().get("converse", {}).get("timeout", 300)` being present or
absent; the result is the full list of messages the call emits on the bus. -/
def activate (skill_id : String) (cfgConverseTimeout : Option ℚ)
    (duration_minutes : Option ℚ) : List Message :=
  let duration : ℚ :=
    match duration_minutes with
    | Option.none => (cfgConverseTimeout.getD 300) / 60
    | some d => d
  [{ msg_type := "intent.service.skills.activate",
     data := [("skill_id", PyVal.str skill_id),
              ("timeout", PyVal.num duration)] }]

/-- The result of `padacioso.IntentContainer.calc_intent`: an intent name, a
confidence, and extracted entities. A result with confidence 0 stands for "no
match", matching the `match.get("conf", 0)` read in converse.py line 215. -/
structure IntentMatch where
  name : String
  conf : ℚ
  entities : List (String × String)
deriving DecidableEq, Repr

/-- A compiled padacioso container abstracted by its `calc_intent`
behaviour (the padacioso library is external to this repository). -/
def Matcher : Type := String → IntentMatch

/-- An `IntentContainer` as `register_converse_intent` populates it: the
`fuzz` flag and the registered intents (event name and sample sentences). -/
structure IntentContainer where
  fuzz : Bool
  intents : List (String × List String)
deriving DecidableEq, Repr

/-- `ConversationalSkill.register_converse_intent` (converse.py lines
91-116): for each native language, `self.converse_matchers[lang]` is first
replaced by a fresh `IntentContainer(fuzz=fuzzy)`; if the intent resource
file for that language is found, the new intent's samples are added to the
fresh container, otherwise it is left empty. `resource_samples lang` models
locating and reading the resource file (`Option.none` = file not found);
`strict_intents` models `self.settings.get("strict_intents", False)`. The
trailing `add_event` call does not touch the matchers and is omitted. -/
def register_converse_intent (matchers : List (String × IntentContainer))
    (native_langs : List String) (skill_id intent_file : String)
    (resource_samples : String → Option (List String))
    (strict_intents : Bool) : List (String × IntentContainer) :=
  let name := skill_id ++ ".converse:" ++ intent_file
  let fuzzy := !strict_intents
  native_langs.foldl
    (fun m lang =>
      let m1 := dictSet m lang { fuzz := fuzzy, intents := [] }
      match resource_samples lang with
      | Option.none => m1
      | some samples =>
          dictSet m1 lang { fuzz := fuzzy, intents := [(name, samples)] })
    matchers

/-- Helper for `closest_match`: the first entry of minimal distance in a
candidate list, `("und", 1000)` when the list is empty (the sentinel the
library appends before sorting stably by distance). -/
def bestMatch : List (String × ℕ) → String × ℕ
  | [] => ("und", 1000)
  | p :: ps => let q := bestMatch ps; if p.2 ≤ q.2 then p else q

/-- Modelled from the spec: `langcodes.closest_match` (external library),
parameterized by the tag-distance metric `d`. A desired tag that is itself
supported matches at distance 0; otherwise the supported tags within the
default `max_distance = 25` are ranked by distance and the first-best is
returned, with the `("und", 1000)` sentinel when none qualifies. -/
def closest_match (d : String → String → ℕ) (desired : String)
    (supported : List String) : String × ℕ :=
  if desired ∈ supported then (desired, 0)
  else bestMatch ((supported.map (fun s => (s, d desired s))).filter
      (fun p => p.2 ≤ 25))

/-- `ConversationalSkill._get_closest_lang` (converse.py lines 118-137): with
matchers registered, standardize the requested tag, run `closest_match`
against the registered languages and accept the result only when its score is
strictly below 10. -/
def get_closest_lang (d : String → String → ℕ)
    (converse_matchers : List (String × Matcher)) (lang : String) :
    Option String :=
  if converse_matchers.isEmpty then Option.none
  else
    let lang := standardize_lang_tag lang
    let cs := closest_match d lang (converse_matchers.map Prod.fst)
    if cs.2 < 10 then some cs.1 else Option.none

/-- A Python exception observable in the converse path. -/
inductive PyErr where
  | keyError (key : String)
deriving DecidableEq, Repr

/-- The scoring loop of `_handle_converse_intents` (converse.py lines
210-217): for each utterance, `self.converse_matchers[self.lang]` is indexed
(a `KeyError` when `self.lang` is not a key) and the `calc_intent` confidence
is compared with the best so far; a strictly better match replaces the pending
response `message.forward(match["name"], match["entities"])`. -/
def converse_score_loop (converse_matchers : List (String × Matcher))
    (skill_lang : String) :
    List String → ℚ → Option Message → Except PyErr (ℚ × Option Message)
  | [], best_score, response => Except.ok (best_score, response)
  | utt :: rest, best_score, response =>
      match dictGet converse_matchers skill_lang with
      | Option.none => Except.error (PyErr.keyError skill_lang)
      | some m =>
          let mtch := m utt
          if best_score < mtch.conf then
            converse_score_loop converse_matchers skill_lang rest mtch.conf
              (some { msg_type := mtch.name,
                      data := mtch.entities.map
                        (fun e => (e.1, PyVal.str e.2)) })
          else
            converse_score_loop converse_matchers skill_lang rest best_score
              response

/-- `ConversationalSkill._handle_converse_intents` (converse.py lines
200-224): resolve the closest registered language (Python `None` when
resolution fails), score every utterance, and when a best response exists
with confidence at least `min_intent_conf` emit it and return `True`,
otherwise `False`. The result pairs the returned Python value (`Option Bool`,
`Option.none` = `None`) with the emitted intent event, or is the uncaught
`KeyError` from the scoring loop. `min_intent_conf` models
`self.settings.get("min_intent_conf", 0.5)`. -/
def handle_converse_intents (d : String → String → ℕ)
    (converse_matchers : List (String × Matcher)) (skill_lang : String)
    (min_intent_conf : ℚ) (utterances : List String) :
    Except PyErr (Option Bool × Option Message) :=
  match get_closest_lang d converse_matchers skill_lang with
  | Option.none => Except.ok (Option.none, Option.none)
  | some _ =>
      match converse_score_loop converse_matchers skill_lang utterances 0
          Option.none with
      | Except.error e => Except.error e
      | Except.ok (best_score, response) =>
          match response with
          | Option.none => Except.ok (some false, Option.none)
          | some r =>
              if best_score < min_intent_conf then
                Except.ok (some false, Option.none)
              else Except.ok (some true, some r)

/-- The outcome of calling the skill's own `converse` method: a returned
boolean, an `AbortQuestion`/`AbortEvent`, or any other exception (carried as
its `repr` text). -/
inductive ConverseOutcome where
  | ok (result : Bool)
  | abort
  | exc (txt : String)
deriving DecidableEq, Repr

/-- The `skill.converse.response` reply as built in converse.py lines
171-198: `{skill_id, result}` on the normal paths, `{skill_id, error,
result: False}` on the exception paths. -/
def converse_response (skill_id : String) (result : Bool)
    (error : Option String) : Message :=
  { msg_type := "skill.converse.response",
    data :=
      match error with
      | Option.none => [("skill_id", PyVal.str skill_id),
                        ("result", PyVal.bool result)]
      | some e => [("skill_id", PyVal.str skill_id),
                   ("error", PyVal.str e),
                   ("result", PyVal.bool result)] }

/-- `ConversationalSkill._handle_converse_request` (converse.py lines
162-198): when `_handle_converse_intents` returns a truthy value, reply
`result=True` and stop without calling `converse`; otherwise call the
skill's `converse` and reply with its result, with `error="killed"` and
`result=False` on an abort exception, or `error=repr(e)` and `result=False`
on any other exception. Returns the messages emitted on the bus paired with
whether `converse` was invoked; the `KeyError` raised inside
`_handle_converse_intents` occurs outside the `try` block and propagates. -/
def handle_converse_request (d : String → String → ℕ)
    (converse_matchers : List (String × Matcher)) (skill_lang : String)
    (min_intent_conf : ℚ) (skill_id : String) (utterances : List String)
    (conv : ConverseOutcome) : Except PyErr (List Message × Bool) :=
  match handle_converse_intents d converse_matchers skill_lang min_intent_conf
      utterances with
  | Except.error e => Except.error e
  | Except.ok (r, emitted) =>
      let pre := match emitted with
        | Option.none => []
        | some m => [m]
      if r = some true then
        Except.ok (pre ++ [converse_response skill_id true Option.none], false)
      else
        match conv with
        | ConverseOutcome.ok b =>
            Except.ok (pre ++ [converse_response skill_id b Option.none], true)
        | ConverseOutcome.abort =>
            Except.ok
              (pre ++ [converse_response skill_id false (some "killed")], true)
        | ConverseOutcome.exc txt =>
            Except.ok
              (pre ++ [converse_response skill_id false (some txt)], true)

/-- Modelled from the spec: the `langcodes` tag-distance oracle restricted to
the concrete tags used in this development, following the scale documented in
converse.py lines 131-134 (0 = same language, 1-3 = minor regional difference
such as en-US vs en-GB, >= 10 = different language such as en-US vs fr-FR). -/
def langDist (a b : String) : ℕ :=
  if a = b then 0
  else if (a = "en-US" ∧ b = "en-GB") ∨ (a = "en-GB" ∧ b = "en-US") then 3
  else 134

/-! ## `ovos.py`: the `get_response` collection machinery

`_real_wait_response` runs in a thread and loops; each iteration blocks in
`__get_response`, which ends in one of three ways: the session's response
slot was force-set to `None` by the abort handler (killed), the wait timed
out with no utterance (the slot still holds `[]`), or an utterance list
arrived. The loop is therefore embedded as a function over an explicit list
of per-cycle inputs; an input list too short to reach a terminal state leaves
the collection still waiting. -/

/-- What one blocking `OVOSSkill.__get_response` cycle (ovos.py lines
1656-1701) delivered to the loop body: `killed` when the response slot was
externally force-set to `None`, `timeout` when the wait elapsed with the slot
still `[]`, and `utt first rest` when the non-empty utterance list
`first :: rest` arrived. -/
inductive CycleResp where
  | killed
  | timeout
  | utt (first : String) (rest : List String)
deriving DecidableEq, Repr

/-- What one iteration of the `while True` loop in
`OVOSSkill._real_wait_response` (ovos.py lines 1881-1913) does: either the
function returns with the session's validated-response slot holding the given
final value (`Option.none` = Python `None`, i.e. no answer), or the loop
re-prompts (speaking `reprompt` when truthy, else emitting
`mycroft.mic.listen`) and continues with the updated `num_fails` counter. -/
inductive StepRes where
  | done (validated_slot : Option PyVal)
  | next (num_fails : ℤ) (reprompt : Option String)
deriving DecidableEq, Repr

/-- One iteration of `OVOSSkill._real_wait_response` (ovos.py lines
1881-1913), with `OVOSSkill._validate_response` (lines 1819-1846) inlined for
the utterance case:
* a killed cycle breaks out of the loop, the abort handler having already set
  the validated slot to `None`;
* a cancel-matching utterance sets both slots to `None` and the loop returns;
* a validated utterance stores the raw text when the validator returned
  exactly `True` and the validator's value otherwise, and the loop returns;
* a failed validation clears the response slot, computes the re-prompt from
  `on_fail` and, when that re-prompt is truthy, resets `num_fails` to 0;
* an empty timeout increments `num_fails` and ends the collection with no
  answer once `num_fails >= num_retries and num_retries >= 0`. -/
def wait_step (is_cancel : String → Bool) (validator : String → PyVal)
    (on_fail : List String → String) (num_retries num_fails : ℤ) :
    CycleResp → StepRes
  | CycleResp.killed => StepRes.done Option.none
  | CycleResp.utt first rest =>
      if is_cancel first then StepRes.done Option.none
      else
        let validated := validator first
        if validated.truthy then
          StepRes.done (some (if validated = PyVal.bool true
            then PyVal.str first else validated))
        else
          let reprompt := on_fail (first :: rest)
          if reprompt != "" then StepRes.next 0 (some reprompt)
          else StepRes.next num_fails Option.none
  | CycleResp.timeout =>
      let nf := num_fails + 1
      if nf ≥ num_retries ∧ num_retries ≥ 0 then StepRes.done Option.none
      else StepRes.next nf Option.none

/-- The state of a collection after consuming the supplied cycles: the thread
returned leaving the given final validated slot, or it is still inside the
`while True` loop awaiting a further cycle. -/
inductive WaitOutcome where
  | finished (validated_slot : Option PyVal)
  | waiting
deriving DecidableEq, Repr

/-- The `while True` loop of `OVOSSkill._real_wait_response` (ovos.py lines
1878-1913) as iterated `wait_step`, starting from the given `num_fails`
(0 on entry, line 1878), over an explicit list of per-cycle inputs. -/
def wait_loop (is_cancel : String → Bool) (validator : String → PyVal)
    (on_fail : List String → String) (num_retries num_fails : ℤ) :
    List CycleResp → WaitOutcome
  | [] => WaitOutcome.waiting
  | c :: rest =>
      match wait_step is_cancel validator on_fail num_retries num_fails c with
      | StepRes.done v => WaitOutcome.finished v
      | StepRes.next nf _ =>
          wait_loop is_cancel validator on_fail num_retries nf rest

/-- The polling tail of `OVOSSkill._wait_response` (ovos.py lines 1802-1817):
the caller loops until the validated slot is truthy or `None`; then a `None`
slot yields Python `None`, and a list value is replaced by its first element.
`Option.none` in the outer layer means the poll never observed a terminal
value (the thread is still looping, or the slot holds a falsy non-`None`
value), `some r` that `get_response` receives `r`. -/
def poll_result : WaitOutcome → Option (Option PyVal)
  | WaitOutcome.waiting => Option.none
  | WaitOutcome.finished v =>
      match v with
      | Option.none => some Option.none
      | some w =>
          if w.truthy then
            some (some (match w with
              | PyVal.list (x :: _) => PyVal.str x
              | other => other))
          else Option.none

/-- `OVOSSkill.get_response` restricted to its answer path (ovos.py lines
1776-1783): the value `_wait_response` extracts from the collection thread
started with `num_fails = 0`, which `get_response` returns unchanged.
`some Option.none` is a Python `None` return (no answer), `some (some v)` the
answer `v`, and `Option.none` means the call is still blocked after the
supplied cycles. -/
def get_response_model (is_cancel : String → Bool) (validator : String → PyVal)
    (on_fail : List String → String) (num_retries : ℤ)
    (cycles : List CycleResp) : Option (Option PyVal) :=
  poll_result (wait_loop is_cancel validator on_fail num_retries 0 cycles)

/-- `OVOSSkill._handle_killed_wait_response` (ovos.py lines 1848-1855): every
session's pending-response slot and every session's validated-response slot
is rewritten to `None`, and `<skill_id>.get_response.killed` is emitted. The
two dicts are passed and returned explicitly, along with the emitted
message. -/
def handle_killed_wait_response
    (responses : List (String × Option (List String)))
    (validated_responses : List (String × Option PyVal)) (skill_id : String) :
    (List (String × Option (List String))) × (List (String × Option PyVal)) ×
      Message :=
  (responses.map (fun p => (p.1, Option.none)),
   validated_responses.map (fun p => (p.1, Option.none)),
   { msg_type := skill_id ++ ".get_response.killed", data := [] })

/-! ## Concrete instances used to exercise the model -/

/-- A concrete padacioso matcher that recognises every utterance as the
converse intent `"skill-x.converse:hi"` with full confidence. -/
def sampleMatcher : Matcher :=
  fun _ => { name := "skill-x.converse:hi", conf := 1, entities := [] }

/-- The container `register_converse_intent` installs for one language: a
fresh `IntentContainer(fuzz=fuzzy)` holding the new intent's samples when the
resource file is found, and nothing otherwise. -/
def freshContainer (skill_id intent_file : String)
    (resource_samples : String → Option (List String)) (strict_intents : Bool)
    (lang : String) : IntentContainer :=
  match resource_samples lang with
  | Option.none => { fuzz := !strict_intents, intents := [] }
  | some samples =>
      { fuzz := !strict_intents,
        intents := [(skill_id ++ ".converse:" ++ intent_file, samples)] }

/-! ## Association-list lemmas -/

theorem dictGet_dictSet_same {α : Type} (m : List (String × α)) (k : String)
    (v : α) : dictGet (dictSet m k v) k = some v := by
  induction m with
  | nil => simp [dictSet, dictGet]
  | cons p rest ih =>
      obtain ⟨k', v'⟩ := p
      by_cases h : k' = k <;> simp [dictSet, dictGet, h, ih]

theorem dictGet_dictSet_other {α : Type} (m : List (String × α)) (k k' : String)
    (v : α) (hne : k ≠ k') : dictGet (dictSet m k v) k' = dictGet m k' := by
  induction m with
  | nil => simp [dictSet, dictGet, hne]
  | cons p rest ih =>
      obtain ⟨k0, v0⟩ := p
      by_cases h : k0 = k
      · subst h
        simp [dictSet, dictGet, hne]
      · simp [dictSet, dictGet, h, ih]

theorem dictGet_map_const {α β : Type} (m : List (String × α)) (k : String)
    (c : β) :
    dictGet (m.map (fun p => (p.1, c))) k = (dictGet m k).map (fun _ => c) := by
  induction m with
  | nil => rfl
  | cons p rest ih =>
      by_cases h : p.1 = k <;> simp [dictGet, h, ih]

/-! ## Claims about the response-collection loop -/

/-- C1: the claim says that with `num_retries = -1` and no utterance ever
arriving, the collection terminates with no answer after at most one
empty-timeout reprompt cycle. The code does the opposite: the stop condition
`num_fails >= num_retries and num_retries >= 0` is never satisfied for
`num_retries = -1`, so after any number of empty-timeout cycles the loop is
still running (and `get_response` still blocked), contradicting the
documented `-1` policy at ovos.py lines 1719-1723. -/
theorem C1_unlimited_retries_never_stop (is_cancel : String → Bool)
    (validator : String → PyVal) (on_fail : List String → String) (n : ℕ)
    (num_fails : ℤ) :
    wait_loop is_cancel validator on_fail (-1) num_fails
      (List.replicate n CycleResp.timeout) = WaitOutcome.waiting ∧
    get_response_model is_cancel validator on_fail (-1)
      (List.replicate n CycleResp.timeout) = Option.none := by
  have h : ∀ (k : ℕ) (nf : ℤ), wait_loop is_cancel validator on_fail (-1) nf
      (List.replicate k CycleResp.timeout) = WaitOutcome.waiting := by
    intro k
    induction k with
    | zero => intro nf; simp [wait_loop]
    | succ k ih =>
        intro nf
        have hneg : ¬ ((-1 : ℤ) ≥ 0) := by decide
        simp [List.replicate_succ, wait_loop, wait_step, hneg, ih]
  refine ⟨h n num_fails, ?_⟩
  simp [get_response_model, h n 0, poll_result]

/-- C4: in the collection loop the empty-timeout counter `num_fails` is
incremented only when a cycle ends with no utterance, never on a validation
failure; a truthy re-prompt issued because validation failed resets it to 0;
and with `num_retries = 2` and no input ever arriving the collection returns
no answer after exactly 2 empty-timeout cycles — after 1 it is still
waiting. -/
theorem C4_retry_counter_semantics (is_cancel : String → Bool)
    (validator : String → PyVal) (on_fail : List String → String)
    (num_retries num_fails : ℤ) (first : String) (rest : List String) :
    (is_cancel first = false → (validator first).truthy = false →
      on_fail (first :: rest) ≠ "" →
      wait_step is_cancel validator on_fail num_retries num_fails
        (CycleResp.utt first rest)
        = StepRes.next 0 (some (on_fail (first :: rest)))) ∧
    (is_cancel first = false → (validator first).truthy = false →
      on_fail (first :: rest) = "" →
      wait_step is_cancel validator on_fail num_retries num_fails
        (CycleResp.utt first rest) = StepRes.next num_fails Option.none) ∧
    (num_fails + 1 < num_retries →
      wait_step is_cancel validator on_fail num_retries num_fails
        CycleResp.timeout = StepRes.next (num_fails + 1) Option.none) ∧
    (num_fails + 1 ≥ num_retries → num_retries ≥ 0 →
      wait_step is_cancel validator on_fail num_retries num_fails
        CycleResp.timeout = StepRes.done Option.none) ∧
    (get_response_model is_cancel validator on_fail 2
      [CycleResp.timeout, CycleResp.timeout] = some Option.none) ∧
    (wait_loop is_cancel validator on_fail 2 0 [CycleResp.timeout]
      = WaitOutcome.waiting) := by
  refine ⟨?_, ?_, ?_, ?_, ?_, ?_⟩
  · intro hc hv hf
    simp [wait_step, hc, hv, hf]
  · intro hc hv hf
    simp [wait_step, hc, hv, hf]
  · intro hlt
    have : ¬ (num_fails + 1 ≥ num_retries ∧ num_retries ≥ 0) := by
      intro hand
      exact absurd hand.1 (not_le.mpr hlt)
    simp [wait_step, this]
  · intro hge hnn
    simp [wait_step, hge, hnn]
  · have h1 : ¬ ((0 : ℤ) + 1 ≥ 2 ∧ (2 : ℤ) ≥ 0) := by decide
    have h2 : ((1 : ℤ) + 1 ≥ 2 ∧ (2 : ℤ) ≥ 0) := by decide
    simp [get_response_model, wait_loop, wait_step, h1, h2, poll_result]
  · have h1 : ¬ ((0 : ℤ) + 1 ≥ 2 ∧ (2 : ℤ) ≥ 0) := by decide
    simp [wait_loop, wait_step, h1]

/-- Witness for C4 at concrete inputs: a failed validation with a truthy
re-prompt resets the counter from 1 to 0, and with `num_retries = 2` two
empty cycles end the collection with no answer while one leaves it
waiting. -/
theorem C4_retry_counter_semantics_witness :
    wait_step (fun _ => false) (fun _ => PyVal.pyNone) (fun _ => "try again")
      2 1 (CycleResp.utt "hi" []) = StepRes.next 0 (some "try again") ∧
    get_response_model (fun _ => false) (fun _ => PyVal.pyNone)
      (fun _ => "try again") 2 [CycleResp.timeout, CycleResp.timeout]
      = some Option.none ∧
    wait_loop (fun _ => false) (fun _ => PyVal.pyNone) (fun _ => "try again")
      2 0 [CycleResp.timeout] = WaitOutcome.waiting := by
  have h := C4_retry_counter_semantics (fun _ => false) (fun _ => PyVal.pyNone)
    (fun _ => "try again") 2 1 "hi" []
  exact ⟨h.1 rfl rfl (by decide), h.2.2.2.2.1, h.2.2.2.2.2⟩

/-- C5 counterexample: a validator that accepts "yeah sure" by returning the
truthy non-`True` value `["yes", "yeah"]` (a list) does not get that value
returned verbatim: `get_response` hands back the list's first element
`"yes"`, because `_wait_response` replaces a list answer by `ans[0]`
(ovos.py lines 1814-1815). -/
theorem C5_list_value_not_verbatim :
    get_response_model (fun _ => false)
      (fun _ => PyVal.list ["yes", "yeah"]) (fun _ => "") (-1)
      [CycleResp.utt "yeah sure" []] = some (some (PyVal.str "yes")) ∧
    (PyVal.list ["yes", "yeah"]).truthy = true ∧
    PyVal.list ["yes", "yeah"] ≠ PyVal.bool true ∧
    some (some (PyVal.str "yes"))
      ≠ some (some (PyVal.list ["yes", "yeah"])) := by
  refine ⟨?_, by decide, by decide, by decide⟩
  simp [get_response_model, wait_loop, wait_step, PyVal.truthy, poll_result]

/-- C5 (amended): when the validator accepts the first utterance of a cycle,
`get_response` returns the raw (non-empty) utterance text if the validator
returned exactly `True`, returns any other truthy non-list value verbatim,
and returns the first element of a truthy list value. -/
theorem C5_validator_value_returned (is_cancel : String → Bool)
    (validator : String → PyVal) (on_fail : List String → String)
    (num_retries : ℤ) (first : String) (rest : List String)
    (cycles : List CycleResp) (hc : is_cancel first = false) :
    (validator first = PyVal.bool true → first ≠ "" →
      get_response_model is_cancel validator on_fail num_retries
        (CycleResp.utt first rest :: cycles) = some (some (PyVal.str first))) ∧
    ((validator first).truthy = true → validator first ≠ PyVal.bool true →
      (∀ xs, validator first ≠ PyVal.list xs) →
      get_response_model is_cancel validator on_fail num_retries
        (CycleResp.utt first rest :: cycles)
        = some (some (validator first))) ∧
    (∀ x xs, validator first = PyVal.list (x :: xs) →
      get_response_model is_cancel validator on_fail num_retries
        (CycleResp.utt first rest :: cycles)
        = some (some (PyVal.str x))) := by
  refine ⟨?_, ?_, ?_⟩
  · intro hv hne
    simp [get_response_model, wait_loop, wait_step, hc, hv, PyVal.truthy,
      poll_result, hne]
  · intro htr hnb hnl
    cases hval : validator first with
    | pyNone => rw [hval] at htr; simp [PyVal.truthy] at htr
    | bool b =>
        cases b with
        | false => rw [hval] at htr; simp [PyVal.truthy] at htr
        | true => exact absurd hval hnb
    | str s =>
        rw [hval] at htr
        simp [get_response_model, wait_loop, wait_step, hc, hval, htr,
          poll_result, PyVal.truthy] at htr ⊢
        simp [htr]
    | num q =>
        rw [hval] at htr
        simp [get_response_model, wait_loop, wait_step, hc, hval, htr,
          poll_result, PyVal.truthy] at htr ⊢
        simp [htr]
    | list xs => exact absurd hval (hnl xs)
  · intro x xs hv
    simp [get_response_model, wait_loop, wait_step, hc, hv, PyVal.truthy,
      poll_result]

/-- Witness for C5 (amended) at concrete inputs: a validator mapping
"yeah sure" to the string `"yes"` makes `get_response` return `"yes"`, and a
validator returning exactly `True` makes it return the raw utterance. -/
theorem C5_validator_value_returned_witness :
    get_response_model (fun _ => false) (fun _ => PyVal.str "yes")
      (fun _ => "") (-1) [CycleResp.utt "yeah sure" []]
      = some (some (PyVal.str "yes")) ∧
    get_response_model (fun _ => false) (fun _ => PyVal.bool true)
      (fun _ => "") (-1) [CycleResp.utt "yeah sure" []]
      = some (some (PyVal.str "yeah sure")) := by
  constructor
  · exact (C5_validator_value_returned (fun _ => false)
      (fun _ => PyVal.str "yes") (fun _ => "") (-1) "yeah sure" [] [] rfl).2.1
      rfl (by decide) (fun xs hx => PyVal.noConfusion hx)
  · exact (C5_validator_value_returned (fun _ => false)
      (fun _ => PyVal.bool true) (fun _ => "") (-1) "yeah sure" [] [] rfl).1
      rfl (by decide)

/-- C6: when the user's utterance matches the cancel vocabulary, the cycle
ends the collection with no answer regardless of the validator — the cancel
check precedes validation in `_validate_response` (ovos.py lines 1827-1833)
— and `get_response` returns Python `None`. -/
theorem C6_cancel_beats_validator (is_cancel : String → Bool)
    (validator : String → PyVal) (on_fail : List String → String)
    (num_retries : ℤ) (first : String) (rest : List String)
    (cycles : List CycleResp) (hc : is_cancel first = true) :
    get_response_model is_cancel validator on_fail num_retries
      (CycleResp.utt first rest :: cycles) = some Option.none := by
  simp [get_response_model, wait_loop, wait_step, hc, poll_result]

/-- Witness for C6 at concrete inputs: the cancel phrase ends the collection
with no answer even though the supplied validator accepts every utterance
(returning `True`). -/
theorem C6_cancel_beats_validator_witness :
    get_response_model (fun s => s == "cancel this")
      (fun _ => PyVal.bool true) (fun _ => "") (-1)
      [CycleResp.utt "cancel this" []] = some Option.none :=
  C6_cancel_beats_validator (fun s => s == "cancel this")
    (fun _ => PyVal.bool true) (fun _ => "") (-1) "cancel this" [] []
    (by decide)

/-- C8: the abort handler rewrites every session's pending-response slot and
every session's validated-response slot to `None` (keys preserved), emits
`<skill_id>.get_response.killed`, and a killed cycle makes the collection
finish with no answer, which the polling caller observes so that
`get_response` returns Python `None`. -/
theorem C8_kill_clears_all_sessions
    (responses : List (String × Option (List String)))
    (validated_responses : List (String × Option PyVal)) (skill_id : String)
    (k : String) (is_cancel : String → Bool) (validator : String → PyVal)
    (on_fail : List String → String) (num_retries num_fails : ℤ)
    (cycles : List CycleResp) :
    dictGet (handle_killed_wait_response responses validated_responses
        skill_id).1 k = (dictGet responses k).map (fun _ => Option.none) ∧
    dictGet (handle_killed_wait_response responses validated_responses
        skill_id).2.1 k
      = (dictGet validated_responses k).map (fun _ => Option.none) ∧
    (handle_killed_wait_response responses validated_responses
        skill_id).2.2.msg_type = skill_id ++ ".get_response.killed" ∧
    wait_loop is_cancel validator on_fail num_retries num_fails
      (CycleResp.killed :: cycles) = WaitOutcome.finished Option.none ∧
    get_response_model is_cancel validator on_fail num_retries
      (CycleResp.killed :: cycles) = some Option.none := by
  refine ⟨?_, ?_, rfl, ?_, ?_⟩
  · exact dictGet_map_const responses k _
  · exact dictGet_map_const validated_responses k _
  · simp [wait_loop, wait_step]
  · simp [get_response_model, wait_loop, wait_step, poll_result]

/-! ## Claims about converse handling -/

theorem bestMatch_le (l : List (String × ℕ)) :
    ∀ p ∈ l, (bestMatch l).2 ≤ p.2 := by
  induction l with
  | nil => intro p hp; exact absurd hp (List.not_mem_nil p)
  | cons q ps ih =>
      intro p hp
      rcases List.mem_cons.mp hp with h | h
      · subst h
        by_cases hle : p.2 ≤ (bestMatch ps).2
        · simp [bestMatch, hle]
        · simp [bestMatch, hle]
          exact le_of_not_le hle
      · by_cases hle : q.2 ≤ (bestMatch ps).2
        · simp [bestMatch, hle]
          exact le_trans hle (ih p h)
        · simp [bestMatch, hle]
          exact ih p h

theorem bestMatch_mem (l : List (String × ℕ)) :
    bestMatch l = ("und", 1000) ∨ bestMatch l ∈ l := by
  induction l with
  | nil => exact Or.inl rfl
  | cons q ps ih =>
      by_cases hle : q.2 ≤ (bestMatch ps).2
      · right
        simp [bestMatch, hle]
      · have hres : bestMatch (q :: ps) = bestMatch ps := by
          simp [bestMatch, hle]
        rcases ih with h | h
        · left
          rw [hres, h]
        · right
          rw [hres]
          exact List.mem_cons_of_mem q h

/-- `closest_match` returns a score below 10 exactly when some supported tag
is at distance below 10, and in that case its first component is a supported
tag realising the minimal distance. -/
theorem closest_match_spec (d : String → String → ℕ) (desired : String)
    (supported : List String) (hrefl : ∀ x, d x x = 0) :
    ((closest_match d desired supported).2 < 10 ↔
      ∃ k ∈ supported, d desired k < 10) ∧
    ((closest_match d desired supported).2 < 10 →
      (closest_match d desired supported).1 ∈ supported ∧
      d desired (closest_match d desired supported).1
        = (closest_match d desired supported).2 ∧
      ∀ k ∈ supported, (closest_match d desired supported).2 ≤ d desired k) := by
  by_cases hmem : desired ∈ supported
  · refine ⟨⟨fun _ => ⟨desired, hmem, by rw [hrefl]; decide⟩,
      fun _ => by simp [closest_match, hmem]⟩, fun _ => ?_⟩
    refine ⟨by simp [closest_match, hmem], ?_, ?_⟩
    · simp [closest_match, hmem, hrefl]
    · intro k hk
      simp [closest_match, hmem]
  · have hcm : closest_match d desired supported
        = bestMatch ((supported.map (fun s => (s, d desired s))).filter
          (fun p => p.2 ≤ 25)) := by
      simp [closest_match, hmem]
    have hpair : ∀ p ∈ (supported.map (fun s => (s, d desired s))).filter
        (fun p => p.2 ≤ 25), p.1 ∈ supported ∧ p.2 = d desired p.1 := by
      intro p hp
      have hp' := (List.mem_filter.mp hp).1
      obtain ⟨s, hs, hps⟩ := List.mem_map.mp hp'
      subst hps
      exact ⟨hs, rfl⟩
    constructor
    · constructor
      · intro hlt
        rcases bestMatch_mem ((supported.map (fun s => (s, d desired s))).filter
            (fun p => p.2 ≤ 25)) with h | h
        · rw [hcm, h] at hlt
          exact absurd hlt (by decide)
        · obtain ⟨hmem', heq⟩ := hpair _ h
          refine ⟨(bestMatch _).1, hmem', ?_⟩
          rw [← heq]
          rw [hcm] at hlt
          exact hlt
      · intro ⟨k, hk, hdk⟩
        have hfilt : (k, d desired k) ∈ (supported.map
            (fun s => (s, d desired s))).filter (fun p => p.2 ≤ 25) := by
          refine List.mem_filter.mpr ⟨List.mem_map.mpr ⟨k, hk, rfl⟩, ?_⟩
          simp only [decide_eq_true_eq]
          omega
        have := bestMatch_le _ _ hfilt
        rw [hcm]
        omega
    · intro hlt
      rcases bestMatch_mem ((supported.map (fun s => (s, d desired s))).filter
          (fun p => p.2 ≤ 25)) with h | h
      · rw [hcm, h] at hlt
        exact absurd hlt (by decide)
      · obtain ⟨hmem', heq⟩ := hpair _ h
        rw [hcm]
        refine ⟨hmem', heq.symm, ?_⟩
        intro k hk
        by_cases hk25 : d desired k ≤ 25
        · have hfilt : (k, d desired k) ∈ (supported.map
              (fun s => (s, d desired s))).filter (fun p => p.2 ≤ 25) := by
            refine List.mem_filter.mpr ⟨List.mem_map.mpr ⟨k, hk, rfl⟩, ?_⟩
            simp only [decide_eq_true_eq]
            exact hk25
          exact bestMatch_le _ _ hfilt
        · rw [hcm] at hlt
          omega

/-- C7: language resolution returns the closest registered language exactly
when the minimal tag distance is strictly below 10, and returns no match
whenever the minimal distance is at least 10 or no matchers are registered;
in particular resolving `"en-US"` against a matcher set containing only
`"fr-FR"` yields no match. The hypothesis states that the distance metric
gives identical tags distance 0. -/
theorem C7_language_resolution_threshold (d : String → String → ℕ)
    (converse_matchers : List (String × Matcher)) (lang : String)
    (hrefl : ∀ x, d x x = 0) :
    (get_closest_lang d converse_matchers lang = Option.none ↔
      converse_matchers = [] ∨
      ∀ k ∈ converse_matchers.map Prod.fst,
        10 ≤ d (standardize_lang_tag lang) k) ∧
    (∀ c, get_closest_lang d converse_matchers lang = some c →
      c ∈ converse_matchers.map Prod.fst ∧
      d (standardize_lang_tag lang) c < 10 ∧
      ∀ k ∈ converse_matchers.map Prod.fst,
        d (standardize_lang_tag lang) c ≤ d (standardize_lang_tag lang) k) ∧
    get_closest_lang langDist [("fr-FR", sampleMatcher)] "en-US"
      = Option.none := by
  refine ⟨?_, ?_, by decide⟩
  · cases converse_matchers with
    | nil => simp [get_closest_lang]
    | cons p ms =>
        obtain ⟨hiff, _⟩ := closest_match_spec d (standardize_lang_tag lang)
          ((p :: ms).map Prod.fst) hrefl
        by_cases hscore : (closest_match d (standardize_lang_tag lang)
            ((p :: ms).map Prod.fst)).2 < 10
        · obtain ⟨k, hk, hdk⟩ := hiff.mp hscore
          simp only [get_closest_lang, List.isEmpty_cons, Bool.false_eq_true,
            if_false, hscore, if_true, reduceCtorEq, false_iff]
          push_neg
          exact ⟨not_false, ⟨k, hk, hdk⟩⟩
        · simp only [get_closest_lang, List.isEmpty_cons, Bool.false_eq_true,
            if_false, hscore, true_iff]
          right
          intro k hk
          by_contra hlt
          exact hscore (hiff.mpr ⟨k, hk, by omega⟩)
  · intro c hc
    cases converse_matchers with
    | nil => simp [get_closest_lang] at hc
    | cons p ms =>
        obtain ⟨hiff, hmin⟩ := closest_match_spec d (standardize_lang_tag lang)
          ((p :: ms).map Prod.fst) hrefl
        by_cases hscore : (closest_match d (standardize_lang_tag lang)
            ((p :: ms).map Prod.fst)).2 < 10
        · simp only [get_closest_lang, List.isEmpty_cons, Bool.false_eq_true,
            if_false, hscore, if_true, Option.some.injEq] at hc
          obtain ⟨hmem, heq, hall⟩ := hmin hscore
          subst hc
          refine ⟨hmem, by omega, ?_⟩
          intro k hk
          have := hall k hk
          omega
        · simp only [get_closest_lang, List.isEmpty_cons, Bool.false_eq_true,
            if_false, hscore, if_false, reduceCtorEq] at hc

/-- Witness for C7 at concrete inputs: the modelled `langcodes` distance is 0
on identical tags, and resolving `"en-US"` against a matcher set containing
only `"fr-FR"` yields no match. -/
theorem C7_language_resolution_threshold_witness :
    get_closest_lang langDist [("fr-FR", sampleMatcher)] "en-US"
      = Option.none :=
  (C7_language_resolution_threshold langDist [("fr-FR", sampleMatcher)]
    "en-US" (fun x => by simp [langDist])).2.2

/-- C2: the claim says every utterance is scored against the matcher stored
for the *resolved* language with no lookup error even when that language
differs from the skill's current tag. The code instead indexes
`self.converse_matchers[self.lang]` (converse.py line 214): with only
`"en-GB"` registered and skill language `"en-US"`, resolution succeeds with
`"en-GB"` (a different tag), and scoring then raises `KeyError("en-US")`. -/
theorem C2_resolved_language_not_used :
    get_closest_lang langDist [("en-GB", sampleMatcher)] "en-US"
      = some "en-GB" ∧
    ("en-GB" : String) ≠ "en-US" ∧
    handle_converse_intents langDist [("en-GB", sampleMatcher)] "en-US"
      (1 / 2) ["hello"] = Except.error (PyErr.keyError "en-US") := by
  refine ⟨by decide, by decide, ?_⟩
  have h1 : get_closest_lang langDist [("en-GB", sampleMatcher)] "en-US"
      = some "en-GB" := by decide
  have h2 : dictGet [("en-GB", sampleMatcher)] "en-US" = Option.none := by
    simp [dictGet]
  simp [handle_converse_intents, h1, converse_score_loop, h2]

/-- C9: for an inbound converse request, a registered converse-intent match
makes the handler emit the matched intent event followed by a
`skill.converse.response` with `result=True` and skip the free-form
`converse` handler; when `converse` does run, an abort produces the response
with `error="killed"` and `result=False`, and any other exception produces
the response with its textual representation as `error` and
`result=False`. -/
theorem C9_converse_request_dispatch (d : String → String → ℕ)
    (converse_matchers : List (String × Matcher)) (skill_lang : String)
    (min_intent_conf : ℚ) (skill_id : String) (utterances : List String)
    (conv : ConverseOutcome) :
    (∀ im, handle_converse_intents d converse_matchers skill_lang
        min_intent_conf utterances = Except.ok (some true, some im) →
      handle_converse_request d converse_matchers skill_lang min_intent_conf
        skill_id utterances conv
        = Except.ok ([im, converse_response skill_id true Option.none],
          false)) ∧
    (∀ r, handle_converse_intents d converse_matchers skill_lang
        min_intent_conf utterances = Except.ok (r, Option.none) →
      r ≠ some true →
      (conv = ConverseOutcome.abort →
        handle_converse_request d converse_matchers skill_lang min_intent_conf
          skill_id utterances conv
          = Except.ok ([converse_response skill_id false (some "killed")],
            true)) ∧
      (∀ txt, conv = ConverseOutcome.exc txt →
        handle_converse_request d converse_matchers skill_lang min_intent_conf
          skill_id utterances conv
          = Except.ok ([converse_response skill_id false (some txt)],
            true))) := by
  constructor
  · intro im him
    simp [handle_converse_request, him]
  · intro r hr hne
    constructor
    · intro hconv
      subst hconv
      simp [handle_converse_request, hr, hne]
    · intro txt hconv
      subst hconv
      simp [handle_converse_request, hr, hne]

/-- Witness for C9 at concrete inputs: with the full-confidence matcher
registered for `"en-US"` and an `"en-US"` request, the matched intent event
and the `result=True` response are emitted without invoking `converse`; with
no matchers registered, an aborted `converse` yields the `error="killed"`
response and a raising `converse` yields its `repr` text as the error. -/
theorem C9_converse_request_dispatch_witness :
    handle_converse_request langDist [("en-US", sampleMatcher)] "en-US"
      (1 / 2) "skill-x" ["hi"] ConverseOutcome.abort
      = Except.ok ([{ msg_type := "skill-x.converse:hi", data := [] },
          converse_response "skill-x" true Option.none], false) ∧
    handle_converse_request langDist [] "en-US" (1 / 2) "skill-x" ["hi"]
      ConverseOutcome.abort
      = Except.ok ([converse_response "skill-x" false (some "killed")],
        true) ∧
    handle_converse_request langDist [] "en-US" (1 / 2) "skill-x" ["hi"]
      (ConverseOutcome.exc "ValueError: boom")
      = Except.ok ([converse_response "skill-x" false
          (some "ValueError: boom")], true) := by
  have h := C9_converse_request_dispatch langDist [("en-US", sampleMatcher)]
    "en-US" (1 / 2) "skill-x" ["hi"] ConverseOutcome.abort
  have h2 := C9_converse_request_dispatch langDist [] "en-US" (1 / 2)
    "skill-x" ["hi"] ConverseOutcome.abort
  have h3 := C9_converse_request_dispatch langDist [] "en-US" (1 / 2)
    "skill-x" ["hi"] (ConverseOutcome.exc "ValueError: boom")
  refine ⟨?_, ?_, ?_⟩
  · refine h.1 { msg_type := "skill-x.converse:hi", data := [] } ?_
    have hg : get_closest_lang langDist [("en-US", sampleMatcher)] "en-US"
        = some "en-US" := by decide
    have hd : dictGet [("en-US", sampleMatcher)] "en-US" = some sampleMatcher := by
      simp [dictGet]
    simp [handle_converse_intents, hg, converse_score_loop, hd, sampleMatcher]
    norm_num
  · refine (h2.2 Option.none ?_ (by simp)).1 rfl
    simp [handle_converse_intents, get_closest_lang]
  · refine (h3.2 Option.none ?_ (by simp)).2 "ValueError: boom" rfl
    simp [handle_converse_intents, get_closest_lang]

theorem register_converse_intent_cons
    (matchers : List (String × IntentContainer)) (a : String)
    (rest : List String) (skill_id intent_file : String)
    (rs : String → Option (List String)) (strict : Bool) :
    register_converse_intent matchers (a :: rest) skill_id intent_file rs
        strict
      = register_converse_intent
          (match rs a with
           | Option.none =>
               dictSet matchers a { fuzz := !strict, intents := [] }
           | some samples =>
               dictSet (dictSet matchers a { fuzz := !strict, intents := [] })
                 a { fuzz := !strict,
                     intents := [(skill_id ++ ".converse:" ++ intent_file,
                       samples)] })
          rest skill_id intent_file rs strict := rfl

theorem register_converse_intent_get_of_not_mem (langs : List String)
    (matchers : List (String × IntentContainer))
    (skill_id intent_file : String) (rs : String → Option (List String))
    (strict : Bool) (k : String) (hk : k ∉ langs) :
    dictGet (register_converse_intent matchers langs skill_id intent_file rs
      strict) k = dictGet matchers k := by
  induction langs generalizing matchers with
  | nil => rfl
  | cons a rest ih =>
      have hka : a ≠ k := fun h => hk (h ▸ List.mem_cons_self a rest)
      have hkr : k ∉ rest := fun h => hk (List.mem_cons_of_mem a h)
      rw [register_converse_intent_cons, ih _ hkr]
      cases hrs : rs a with
      | none => exact dictGet_dictSet_other _ a k _ hka
      | some s =>
          rw [dictGet_dictSet_other _ a k _ hka,
            dictGet_dictSet_other _ a k _ hka]

theorem register_converse_intent_get_of_mem (langs : List String)
    (matchers : List (String × IntentContainer))
    (skill_id intent_file : String) (rs : String → Option (List String))
    (strict : Bool) (k : String) (hk : k ∈ langs) :
    dictGet (register_converse_intent matchers langs skill_id intent_file rs
        strict) k
      = some (freshContainer skill_id intent_file rs strict k) := by
  induction langs generalizing matchers with
  | nil => exact absurd hk (List.not_mem_nil k)
  | cons a rest ih =>
      by_cases hkr : k ∈ rest
      · rw [register_converse_intent_cons]
        exact ih _ hkr
      · have hka : k = a := by
          rcases List.mem_cons.mp hk with h | h
          · exact h
          · exact absurd h hkr
        subst hka
        rw [register_converse_intent_cons,
          register_converse_intent_get_of_not_mem rest _ skill_id intent_file
            rs strict k hkr]
        cases hrs : rs k with
        | none => simp [hrs, dictGet_dictSet_same, freshContainer]
        | some s => simp [hrs, dictGet_dictSet_same, freshContainer]

/-- C10: registering a converse intent replaces every native language's
container with a freshly created one before adding the new intent's samples,
so after a second registration the container stored for any iterated language
is exactly the fresh container of the second intent, and every intent it
holds carries the second intent's event name — earlier registrations are
discarded. -/
theorem C10_reregistration_discards_previous
    (matchers : List (String × IntentContainer)) (native_langs : List String)
    (skill_id file1 file2 : String)
    (rs1 rs2 : String → Option (List String)) (strict : Bool) (lang : String)
    (hlang : lang ∈ native_langs) :
    dictGet (register_converse_intent
        (register_converse_intent matchers native_langs skill_id file1 rs1
          strict) native_langs skill_id file2 rs2 strict) lang
      = some (freshContainer skill_id file2 rs2 strict lang) ∧
    ∀ c, dictGet (register_converse_intent
        (register_converse_intent matchers native_langs skill_id file1 rs1
          strict) native_langs skill_id file2 rs2 strict) lang = some c →
      ∀ n samples, (n, samples) ∈ c.intents →
        n = skill_id ++ ".converse:" ++ file2 := by
  have h := register_converse_intent_get_of_mem native_langs
    (register_converse_intent matchers native_langs skill_id file1 rs1 strict)
    skill_id file2 rs2 strict lang hlang
  refine ⟨h, ?_⟩
  intro c hc n samples hmem
  rw [h] at hc
  injection hc with hc
  subst hc
  cases hrs : rs2 lang with
  | none => simp [freshContainer, hrs] at hmem
  | some s =>
      simp [freshContainer, hrs] at hmem
      exact hmem.1

/-- Witness for C10 at concrete inputs: after registering `"foo"` and then
`"bar"` for native language `"en-US"`, the stored container is exactly the
fresh container of `"bar"`. -/
theorem C10_reregistration_discards_previous_witness :
    dictGet (register_converse_intent (register_converse_intent []
        ["en-US"] "skill-x" "foo" (fun _ => some ["hello there"]) false)
        ["en-US"] "skill-x" "bar" (fun _ => some ["good bye"]) false) "en-US"
      = some (freshContainer "skill-x" "bar" (fun _ => some ["good bye"])
          false "en-US") :=
  (C10_reregistration_discards_previous [] ["en-US"] "skill-x" "foo" "bar"
    (fun _ => some ["hello there"]) (fun _ => some ["good bye"]) false "en-US"
    (by simp)).1

/-- C3 counterexample: the claim names the payload key `timeout_minutes`, but
the single message emitted by `activate` carries no `timeout_minutes` key —
the duration is stored under the key `timeout` (converse.py lines 43-45). -/
theorem C3_timeout_minutes_key_absent :
    (activate "skill-x" Option.none (some 5)).map
        (fun m => dictGet m.data "timeout_minutes") = [Option.none] ∧
    (activate "skill-x" Option.none (some 5)).map
        (fun m => dictGet m.data "timeout") = [some (PyVal.num 5)] := by
  constructor <;> simp [activate, dictGet]

/-- C3 (amended): every call to `activate` emits exactly one
`intent.service.skills.activate` message whose payload carries the skill id
and the duration under the key `timeout`: an explicit duration (including
`-1`, the indefinite request) is forwarded verbatim, and an omitted duration
is read from configuration as the converse timeout in seconds divided by 60,
which is 5 minutes for the 300-second default. -/
theorem C3_activate_message_shape (skill_id : String)
    (cfgConverseTimeout duration_minutes : Option ℚ) :
    (activate skill_id cfgConverseTimeout duration_minutes).length = 1 ∧
    (activate skill_id cfgConverseTimeout duration_minutes).map
        Message.msg_type = ["intent.service.skills.activate"] ∧
    (activate skill_id cfgConverseTimeout duration_minutes).map
        (fun m => dictGet m.data "skill_id") = [some (PyVal.str skill_id)] ∧
    (∀ dm, duration_minutes = some dm →
      (activate skill_id cfgConverseTimeout duration_minutes).map
        (fun m => dictGet m.data "timeout") = [some (PyVal.num dm)]) ∧
    (duration_minutes = Option.none →
      (activate skill_id cfgConverseTimeout duration_minutes).map
        (fun m => dictGet m.data "timeout")
        = [some (PyVal.num ((cfgConverseTimeout.getD 300) / 60))]) ∧
    (duration_minutes = Option.none → cfgConverseTimeout = Option.none →
      (activate skill_id cfgConverseTimeout duration_minutes).map
        (fun m => dictGet m.data "timeout") = [some (PyVal.num 5)]) := by
  refine ⟨by simp [activate], by simp [activate], by simp [activate, dictGet],
    ?_, ?_, ?_⟩
  · intro dm hdm
    subst hdm
    simp [activate, dictGet]
  · intro hdm
    subst hdm
    simp [activate, dictGet]
  · intro hdm hcfg
    subst hdm
    subst hcfg
    simp [activate, dictGet]
    norm_num

/-- Witness for C3 (amended) at concrete inputs: with both the duration and
the configured timeout absent the emitted value is 5 minutes, and an explicit
`-1` is forwarded verbatim. -/
theorem C3_activate_message_shape_witness :
    (activate "skill-x" Option.none Option.none).map
        (fun m => dictGet m.data "timeout") = [some (PyVal.num 5)] ∧
    (activate "skill-x" Option.none (some (-1))).map
        (fun m => dictGet m.data "timeout") = [some (PyVal.num (-1))] :=
  ⟨(C3_activate_message_shape "skill-x" Option.none Option.none).2.2.2.2.2
      rfl rfl,
   (C3_activate_message_shape "skill-x" Option.none (some (-1))).2.2.2.1
      (-1) rfl⟩
